import Mathlib

/-!
Verification of the connection-relay core (`p2p_python/connectionrelay.py`):
the mediator handler (`MediatorCmd`) and the connect-request handler
(`AskSrudpCmd`).  The module's own logic is embedded faithfully; the external
value-type codecs (`PeerInfo.to_bytes` / `FormalAddr.to_bytes` and their
decoders) and the external `Peer` record live outside this repository and are
modelled from the spec: opaque, self-delimiting binary forms whose decoder
consumes exactly the bytes the matching encoder produced.
-/

namespace ConnectionRelay

/-- A byte stream is a list of byte values. -/
abbrev Bytes := List Nat

/-- Fixed-width big-endian encoding of a natural number (width in bytes). -/
def beBytes : Nat → Nat → Bytes
  | 0, _ => []
  | w + 1, n => n / 256 ^ w :: beBytes w (n % 256 ^ w)

/-- Big-endian value of a byte list (as computed by int.from_bytes on any
length, including a short read). -/
def beVal : Bytes → Nat
  | [] => 0
  | b :: r => b * 256 ^ r.length + beVal r

/-- Read exactly `w` bytes from the front of a stream and interpret them
big-endian; fail if fewer than `w` bytes remain. -/
def decBE (w : Nat) (l : Bytes) : Option (Nat × Bytes) :=
  if w ≤ l.length then some (beVal (l.take w), l.drop w) else none

/-- One-byte boolean encoding. -/
def encBool (b : Bool) : Bytes := [if b then 1 else 0]

def decBool : Bytes → Option (Bool × Bytes)
  | [] => none
  | x :: r => if x = 1 then some (true, r) else if x = 0 then some (false, r) else none

/-- Host part of a formal address: IP version (4 or 6), loopback flag and the
numeric address value.  Modelled from the spec: host carries IP version and
loopback-ness. -/
structure Host where
  version : Nat
  is_loopback : Bool
  addr : Nat
deriving DecidableEq, Repr

/-- Formal network address: host plus 16-bit port.  Modelled from the spec. -/
structure FormalAddr where
  host : Host
  port : Nat
deriving DecidableEq, Repr

/-- Peer identity record: public key bytes plus ordered list of reachable
addresses.  Modelled from the spec. -/
structure PeerInfo where
  public_key : Bytes
  addresses : List FormalAddr
deriving DecidableEq, Repr

/-- Well-formedness of a host: fields fit their encoded widths. -/
def Host.WF (h : Host) : Prop := h.version < 256 ∧ h.addr < 256 ^ 16

instance (h : Host) : Decidable h.WF := by unfold Host.WF; infer_instance

/-- Well-formedness of an address: host well formed and 16-bit port. -/
def FormalAddr.WF (a : FormalAddr) : Prop := a.host.WF ∧ a.port < 65536

instance (a : FormalAddr) : Decidable a.WF := by unfold FormalAddr.WF; infer_instance

/-- Well-formedness of an identity record. -/
def PeerInfo.WF (i : PeerInfo) : Prop :=
  (∀ b ∈ i.public_key, b < 256) ∧ i.public_key.length < 256 ^ 4 ∧
    i.addresses.length < 256 ^ 4 ∧ ∀ a ∈ i.addresses, a.WF

instance (i : PeerInfo) : Decidable i.WF := by unfold PeerInfo.WF; infer_instance

/-- Modelled from the spec: self-delimiting binary encoding of a host. -/
def Host.to_bytes (h : Host) : Bytes :=
  beBytes 1 h.version ++ encBool h.is_loopback ++ beBytes 16 h.addr

/-- Modelled from the spec: decoder matching `Host.to_bytes`; consumes exactly
the bytes the encoder produced and returns the remaining stream. -/
def Host.from_bytes (l : Bytes) : Option (Host × Bytes) := do
  let (v, r1) ← decBE 1 l
  let (lb, r2) ← decBool r1
  let (a, r3) ← decBE 16 r2
  return (⟨v, lb, a⟩, r3)

/-- Modelled from the spec: self-delimiting binary encoding of an address. -/
def FormalAddr.to_bytes (a : FormalAddr) : Bytes :=
  a.host.to_bytes ++ beBytes 2 a.port

/-- Modelled from the spec: decoder matching `FormalAddr.to_bytes`. -/
def FormalAddr.from_bytes (l : Bytes) : Option (FormalAddr × Bytes) := do
  let (h, r1) ← Host.from_bytes l
  let (p, r2) ← decBE 2 r1
  return (⟨h, p⟩, r2)

/-- Modelled from the spec: length-prefixed raw byte field (public key). -/
def encKeyField (bs : Bytes) : Bytes := beBytes 4 bs.length ++ bs

/-- Modelled from the spec: decoder matching `encKeyField`. -/
def decKeyField (l : Bytes) : Option (Bytes × Bytes) := do
  let (n, r) ← decBE 4 l
  if n ≤ r.length then return (r.take n, r.drop n) else none

/-- Modelled from the spec: length-prefixed list of encoded addresses. -/
def encAddrList (as : List FormalAddr) : Bytes :=
  beBytes 4 as.length ++ (as.map FormalAddr.to_bytes).flatten

/-- Read `n` consecutive addresses from the stream. -/
def decAddrs : Nat → Bytes → Option (List FormalAddr × Bytes)
  | 0, l => some ([], l)
  | n + 1, l => do
    let (a, r) ← FormalAddr.from_bytes l
    let (as, r2) ← decAddrs n r
    return (a :: as, r2)

/-- Modelled from the spec: decoder matching `encAddrList`. -/
def decAddrList (l : Bytes) : Option (List FormalAddr × Bytes) := do
  let (n, r) ← decBE 4 l
  decAddrs n r

/-- Modelled from the spec: self-delimiting binary encoding of an identity. -/
def PeerInfo.to_bytes (i : PeerInfo) : Bytes :=
  encKeyField i.public_key ++ encAddrList i.addresses

/-- Modelled from the spec: decoder matching `PeerInfo.to_bytes`. -/
def PeerInfo.from_bytes (l : Bytes) : Option (PeerInfo × Bytes) := do
  let (k, r1) ← decKeyField l
  let (as, r2) ← decAddrList r1
  return (⟨k, as⟩, r2)

/-- Inner command identifiers used by the two handlers
(`InnerCmd.REQUEST_MEDIATOR`, `InnerCmd.REQUEST_ASK_SRUDP`). -/
inductive InnerCmd where
  | REQUEST_MEDIATOR
  | REQUEST_ASK_SRUDP
deriving DecidableEq, Repr

/-- Peer record.  Modelled from the spec: `{public_key, list of Sock}` plus the
validated key exposed by `get_validated_key`; sockets are identified by id. -/
structure Peer where
  info : PeerInfo
  validated_key : Option Bytes
  socks : List Nat
deriving DecidableEq, Repr

/-- `Peer(issuer_info)` constructor call.  Modelled from the spec: a fresh
record for the issuer's identity; only the identity is passed, so the new
record starts with no attached sockets and no validated key. -/
def Peer.ofInfo (i : PeerInfo) : Peer := ⟨i, none, []⟩

/-- `p2p.get_peer_by_pubkey`.  Modelled from the spec: first known peer whose
public key equals the given key. -/
def get_peer_by_pubkey (peers : List Peer) (key : Bytes) : Option Peer :=
  peers.find? (fun p => p.info.public_key = key)

/-- The for-loop of `MediatorCmd.thread` lines 62-67: first peer whose
validated public key is present and equals the destination key. -/
def findDest (peers : List Peer) (key : Bytes) : Option Peer :=
  peers.find? (fun p => p.validated_key = some key)

/-- `issuer_peer.socks.append(issuer_sock)` on the peer found by
`get_peer_by_pubkey`: append the socket to the first matching peer. -/
def attachSock (peers : List Peer) (key : Bytes) (sid : Nat) : List Peer :=
  match peers with
  | [] => []
  | p :: rest =>
    if p.info.public_key = key then { p with socks := p.socks ++ [sid] } :: rest
    else p :: attachSock rest key sid

/-- Fixed failure payload of `MediatorCmd.thread`: the bytes of the string
given at line 87 of the source. -/
def mediatorFailMsg : Bytes :=
  [109, 101, 100, 105, 97, 116, 111, 114, 95, 116, 104, 114, 101, 97, 100,
   40, 41, 32, 102, 97, 105, 108, 101, 100]

/-- Fixed failure payload of `AskSrudpCmd.thread`: the bytes of the string
given at line 189 of the source. -/
def askFailMsg : Bytes :=
  [97, 115, 107, 95, 115, 114, 117, 100, 112, 95, 116, 104, 114, 101, 97,
   100, 40, 41, 32, 102, 97, 105, 108, 101, 100]

/-- `MediatorCmd.encode` (source lines 28-35): issuer identity, issuer
address, 4-byte big-endian key length, raw destination public-key bytes. -/
def MediatorCmd.encode (issuer_info : PeerInfo) (issuer_addr : FormalAddr)
    (dest_pubkey : Bytes) : Bytes :=
  issuer_info.to_bytes ++ issuer_addr.to_bytes ++
    beBytes 4 dest_pubkey.length ++ dest_pubkey

/-- The inline request decode of `MediatorCmd.thread` (source lines 54-59):
identity, address, `io.read(4)` interpreted big-endian (a short read yields
the value of the bytes present, as `int.from_bytes` does), `io.read(length)`
as the key (`VerifyingKey.from_string` raises when fewer bytes are present
than requested), then the full-buffer-consumed assertion. -/
def MediatorCmd.decodeRequest (l : Bytes) : Option (PeerInfo × FormalAddr × Bytes) := do
  let (issuer_info, r1) ← PeerInfo.from_bytes l
  let (issuer_addr, r2) ← FormalAddr.from_bytes r1
  let length := beVal (r2.take 4)
  let r3 := r2.drop 4
  if length ≤ r3.length then
    let dest_pubkey := r3.take length
    let r4 := r3.drop length
    if r4 = [] then return (issuer_info, issuer_addr, dest_pubkey) else none
  else none

/-- `AskSrudpCmd.encode` (source lines 100-104): issuer identity followed by
issuer address. -/
def AskSrudpCmd.encode (issuer_info : PeerInfo) (issuer_addr : FormalAddr) : Bytes :=
  issuer_info.to_bytes ++ issuer_addr.to_bytes

/-- `AskSrudpCmd.decode` (source lines 107-111): identity, address, then the
full-buffer-consumed assertion. -/
def AskSrudpCmd.decode (l : Bytes) : Option (PeerInfo × FormalAddr) := do
  let (info, r1) ← PeerInfo.from_bytes l
  let (addr, r2) ← FormalAddr.from_bytes r1
  if r2 = [] then return (info, addr) else none

/-- The inline request decode of `AskSrudpCmd.thread` (source lines 121-123):
identity then address, with NO full-buffer-consumed assertion — any trailing
bytes are left unread and ignored. -/
def AskSrudpCmd.decodeRequest (l : Bytes) : Option (PeerInfo × FormalAddr) := do
  let (info, r1) ← PeerInfo.from_bytes l
  let (addr, _r2) ← FormalAddr.from_bytes r1
  return (info, addr)

/-- Observable events of one `MediatorCmd.thread` execution, in order:
`throw_command` calls and `res_fnc` invocations (flag `true` = `_SUCCESS`,
`false` = `_FAILED`). -/
inductive MedEvent where
  | throwCmd (dest : Peer) (cmd : InnerCmd) (body : Bytes)
  | respond (success : Bool) (payload : Bytes)
deriving DecidableEq, Repr

/-- External inputs of one `MediatorCmd.thread` execution: the result of
`get_peer_by_sock(sock)`, the current `p2p.peers`, and the outcome of the
`throw_command` round trip (`Except.error` = raised exception). -/
structure MedEnv where
  req_peer : Option Peer
  peers : List Peer
  throw_result : Except Unit Bytes
deriving Repr

/-- `MediatorCmd.thread` (source lines 45-87) as an event-trace function.
Every raised exception is caught and routed to the final
`res_fnc(_FAILED, ...)` at line 87; the success path responds at line 74 and
returns. -/
def MediatorCmd.thread (env : MedEnv) (body : Bytes) : List MedEvent :=
  match env.req_peer with
  | none => [.respond false mediatorFailMsg]
  | some req_peer =>
    match req_peer.validated_key with
    | none => [.respond false mediatorFailMsg]
    | some _req_pubkey =>
      match MediatorCmd.decodeRequest body with
      | none => [.respond false mediatorFailMsg]
      | some (issuer_info, issuer_addr, dest_pubkey) =>
        match findDest env.peers dest_pubkey with
        | none => [.respond false mediatorFailMsg]
        | some dest_peer =>
          .throwCmd dest_peer .REQUEST_ASK_SRUDP (AskSrudpCmd.encode issuer_info issuer_addr) ::
          match env.throw_result with
          | .error _ => [.respond false mediatorFailMsg]
          | .ok response => [.respond true response]

/-- Linux address-family constant `socket.AF_INET`. -/
def AF_INET : Nat := 2

/-- Linux address-family constant `socket.AF_INET6`. -/
def AF_INET6 : Nat := 10

/-- The address-selection for-loop of `AskSrudpCmd.thread` (source lines
126-134): first own address whose host IP version matches the issuer's; for a
loopback issuer the response port is the `random.randint(1024, 65535)` draw,
otherwise the issuer's port. -/
def pickAddr : List FormalAddr → FormalAddr → Nat → Option FormalAddr
  | [], _, _ => none
  | address :: rest, issuer_addr, rand =>
    if address.host.version = issuer_addr.host.version then
      if issuer_addr.host.is_loopback then some ⟨address.host, rand⟩
      else some ⟨address.host, issuer_addr.port⟩
    else pickAddr rest issuer_addr rand

/-- Observable events of one `AskSrudpCmd.thread` execution, in order:
the `executor.submit(new_sock.connect, ...)` call (with socket family, dialed
address, and the explicit local source port when one is passed), `res_fnc`
invocations, the `fut.result(20.0)` wait, `pool.add_sock`, the
`validate_the_other` and `measure_delay_time` waits, and `close()`. -/
inductive AskEvent where
  | submitConnect (family : Nat) (dial : FormalAddr) (local_port : Option Nat)
  | respond (success : Bool) (payload : Bytes)
  | awaitConnect
  | addSock (sid : Nat)
  | validateOther (sid : Nat)
  | measureDelay (sid : Nat)
  | closeSock (sid : Nat)
deriving DecidableEq, Repr

/-- External inputs of one `AskSrudpCmd.thread` execution: the result of
`get_peer_by_sock(sock)`, the node's own identity `p2p.my_info`, the
`random.randint(1024, 65535)` draw, whether `fut.result(20.0)` returns
normally (`false` = it raises: connect fault or timeout), the `VALIDATED`
flag state after the validation and measurement waits, the current
`p2p.peers` and pool contents, and the id of the newly created socket. -/
structure AskEnv where
  mediate_peer : Option Peer
  my_info : PeerInfo
  rand_port : Nat
  connect_ok : Bool
  validated : Bool
  peers : List Peer
  pool : List Nat
  new_sock : Nat
deriving Repr

/-- Final state and trace of one `AskSrudpCmd.thread` execution. -/
structure AskResult where
  trace : List AskEvent
  peers : List Peer
  pool : List Nat
deriving DecidableEq, Repr

/-- `AskSrudpCmd.thread` (source lines 114-189) as a trace/state function.
The socket family at line 137 is `AF_INET` for version 4, else `AF_INET6`;
the loopback dial passes `dest_addr.port` as the explicit local source port
(line 140).  A raised exception at any point is caught by the handlers at
lines 181-186 and control then reaches the unconditional
`res_fnc(_FAILED, ...)` at line 189 — including exceptions raised after the
success response of line 148 has been sent. -/
def AskSrudpCmd.thread (env : AskEnv) (body : Bytes) : AskResult :=
  match env.mediate_peer with
  | none => ⟨[.respond false askFailMsg], env.peers, env.pool⟩
  | some _mediate_peer =>
    match AskSrudpCmd.decodeRequest body with
    | none => ⟨[.respond false askFailMsg], env.peers, env.pool⟩
    | some (issuer_info, issuer_addr) =>
      match pickAddr env.my_info.addresses issuer_addr env.rand_port with
      | none => ⟨[.respond false askFailMsg], env.peers, env.pool⟩
      | some dest_addr =>
        let family := if issuer_addr.host.version = 4 then AF_INET else AF_INET6
        let submit : AskEvent :=
          if issuer_addr.host.is_loopback then
            .submitConnect family issuer_addr (some dest_addr.port)
          else
            .submitConnect family issuer_addr none
        let ack : AskEvent := .respond true (env.my_info.to_bytes ++ dest_addr.to_bytes)
        if env.connect_ok then
          let sid := env.new_sock
          let pre : List AskEvent :=
            [submit, ack, .awaitConnect, .addSock sid, .validateOther sid, .measureDelay sid]
          if env.validated then
            match get_peer_by_pubkey env.peers issuer_info.public_key with
            | none => ⟨pre, env.peers ++ [Peer.ofInfo issuer_info], env.pool ++ [sid]⟩
            | some _ => ⟨pre, attachSock env.peers issuer_info.public_key sid, env.pool ++ [sid]⟩
          else
            ⟨pre ++ [.closeSock sid], env.peers, env.pool ++ [sid]⟩
        else
          ⟨[submit, ack, .awaitConnect, .respond false askFailMsg], env.peers, env.pool⟩

/-- The `res_fnc` invocations of a mediator trace. -/
def medResponses (t : List MedEvent) : List MedEvent :=
  t.filter (fun e => match e with | .respond _ _ => true | _ => false)

/-- The `res_fnc` invocations of a connect-request trace. -/
def askResponses (t : List AskEvent) : List AskEvent :=
  t.filter (fun e => match e with | .respond _ _ => true | _ => false)

/-- Payload of the first success (`_SUCCESS`) response in a trace. -/
def firstAck : List AskEvent → Option Bytes
  | [] => none
  | .respond true payload :: _ => some payload
  | _ :: rest => firstAck rest

/-! Specification of the two linear scans. -/

/-- First advertised address whose host IP version matches `v`. -/
def firstMatch (as : List FormalAddr) (v : Nat) : Option FormalAddr :=
  as.find? (fun a => a.host.version = v)

/-! Concrete fixtures used to exercise the handlers on explicit inputs. -/

/-- A non-loopback IPv4 host. -/
def cHost4 : Host := ⟨4, false, 1⟩

/-- A loopback IPv4 host. -/
def cLoopHost : Host := ⟨4, true, 2⟩

/-- Issuer address, non-loopback, port 2000. -/
def cIssuerAddr : FormalAddr := ⟨cHost4, 2000⟩

/-- Issuer address, loopback, port 2000. -/
def cLoopAddr : FormalAddr := ⟨cLoopHost, 2000⟩

/-- Issuer identity. -/
def cIssuerInfo : PeerInfo := ⟨[1, 2], [cIssuerAddr]⟩

/-- The node's own advertised IPv4 address. -/
def cMyAddr : FormalAddr := ⟨⟨4, false, 9⟩, 7000⟩

/-- The node's own identity. -/
def cMyInfo : PeerInfo := ⟨[3], [cMyAddr]⟩

/-- The peer resolved from the originating socket. -/
def cMediator : Peer := ⟨cMyInfo, some [5], []⟩

/-- A known destination peer whose validated key is `[9]`. -/
def cDest : Peer := ⟨cIssuerInfo, some [9], []⟩

/-- Connect-request body for the non-loopback issuer address. -/
def cAskBody : Bytes := AskSrudpCmd.encode cIssuerInfo cIssuerAddr

/-- Mediation-request body naming destination key `[9]`. -/
def cMedBody : Bytes := MediatorCmd.encode cIssuerInfo cIssuerAddr [9]

/-- Mediator-side environment: one known peer `cDest`, relay returns
`[1, 2, 3]`. -/
def cMedEnv : MedEnv := ⟨some cMediator, [cDest], .ok [1, 2, 3]⟩

/-- Connect-request environment whose srudp connect attempt raises. -/
def cEnvConnFail : AskEnv := ⟨some cMediator, cMyInfo, 5000, false, false, [], [], 7⟩

/-- Connect-request environment: connect succeeds and validation sets the
`VALIDATED` flag; no peer is known beforehand. -/
def cEnvVal : AskEnv := ⟨some cMediator, cMyInfo, 5000, true, true, [], [], 7⟩

/-- Result of `AskSrudpCmd.thread` on a request body carrying one trailing
byte beyond the declared layout, in an environment where connect and
validation succeed. -/
def cRunTrailing : AskResult :=
  AskSrudpCmd.thread cEnvVal (AskSrudpCmd.encode cIssuerInfo cIssuerAddr ++ [7])

/-- Connect-request environment for the loopback issuer address whose
`random.randint(1024, 65535)` draw happens to equal the issuer's declared
port 2000. -/
def cEnvLoopSame : AskEnv := ⟨some cMediator, cMyInfo, 2000, true, true, [], [], 7⟩

/-- Result of `AskSrudpCmd.thread` on the loopback request in that
environment. -/
def cRunLoopSame : AskResult :=
  AskSrudpCmd.thread cEnvLoopSame (AskSrudpCmd.encode cIssuerInfo cLoopAddr)

/-- Result of `AskSrudpCmd.thread` when connect and validation both succeed
and no peer matching the issuer's key exists beforehand. -/
def cRunVal : AskResult := AskSrudpCmd.thread cEnvVal cAskBody

theorem beBytes_length (w n : Nat) : (beBytes w n).length = w := by
  induction w generalizing n with
  | zero => rfl
  | succ w ih => simp [beBytes, ih]

theorem beVal_beBytes (w n : Nat) (h : n < 256 ^ w) : beVal (beBytes w n) = n := by
  induction w generalizing n with
  | zero =>
    simp [Nat.pow_zero] at h
    simp [h, beBytes, beVal]
  | succ w ih =>
    have hpos : 0 < 256 ^ w := Nat.pos_pow_of_pos w (by decide)
    have hmod : n % 256 ^ w < 256 ^ w := Nat.mod_lt _ hpos
    simp only [beBytes, beVal, beBytes_length, ih _ hmod]
    rw [Nat.mul_comm, Nat.div_add_mod]

theorem take_append_of_length {α : Type} (l₁ l₂ : List α) (w : Nat) (h : l₁.length = w) :
    (l₁ ++ l₂).take w = l₁ := by
  subst h; exact List.take_left _ _

theorem drop_append_of_length {α : Type} (l₁ l₂ : List α) (w : Nat) (h : l₁.length = w) :
    (l₁ ++ l₂).drop w = l₂ := by
  subst h; exact List.drop_left _ _

theorem decBE_of_append (w n : Nat) (rest : Bytes) (h : n < 256 ^ w) :
    decBE w (beBytes w n ++ rest) = some (n, rest) := by
  have hlen : (beBytes w n).length = w := beBytes_length w n
  have ht : (beBytes w n ++ rest).take w = beBytes w n := take_append_of_length _ _ _ hlen
  have hd : (beBytes w n ++ rest).drop w = rest := drop_append_of_length _ _ _ hlen
  unfold decBE
  rw [if_pos (by simp [hlen]), ht, hd, beVal_beBytes w n h]

theorem decBool_of_append (b : Bool) (rest : Bytes) :
    decBool (encBool b ++ rest) = some (b, rest) := by
  cases b <;> simp [encBool, decBool]

theorem hostFromBytes_of_append (h : Host) (hw : h.WF) (rest : Bytes) :
    Host.from_bytes (h.to_bytes ++ rest) = some (h, rest) := by
  obtain ⟨hv, ha⟩ := hw
  simp only [Host.to_bytes, Host.from_bytes, List.append_assoc]
  rw [decBE_of_append 1 h.version _ (by simpa using hv)]
  simp only [Option.bind_eq_bind, Option.some_bind]
  rw [decBool_of_append]
  simp only [Option.some_bind]
  rw [decBE_of_append 16 h.addr _ ha]
  rfl

theorem formalAddrFromBytes_of_append (a : FormalAddr) (hw : a.WF) (rest : Bytes) :
    FormalAddr.from_bytes (a.to_bytes ++ rest) = some (a, rest) := by
  obtain ⟨hh, hp⟩ := hw
  simp only [FormalAddr.to_bytes, FormalAddr.from_bytes, List.append_assoc]
  rw [hostFromBytes_of_append a.host hh]
  simp only [Option.bind_eq_bind, Option.some_bind]
  rw [decBE_of_append 2 a.port _ (by simpa using hp)]
  rfl

theorem decKeyField_of_append (bs : Bytes) (hb : bs.length < 256 ^ 4) (rest : Bytes) :
    decKeyField (encKeyField bs ++ rest) = some (bs, rest) := by
  simp only [encKeyField, decKeyField, List.append_assoc]
  rw [decBE_of_append 4 bs.length _ hb]
  simp only [Option.bind_eq_bind, Option.some_bind]
  rw [if_pos (by simp)]
  rw [List.take_left, List.drop_left]
  rfl

theorem decAddrs_of_append (as : List FormalAddr) (hw : ∀ a ∈ as, a.WF) (rest : Bytes) :
    decAddrs as.length ((as.map FormalAddr.to_bytes).flatten ++ rest) = some (as, rest) := by
  induction as with
  | nil => simp [decAddrs]
  | cons a tl ih =>
    simp only [List.map_cons, List.flatten_cons, List.length_cons, List.append_assoc, decAddrs]
    rw [formalAddrFromBytes_of_append a (hw a (by simp))]
    simp only [Option.bind_eq_bind, Option.some_bind]
    rw [ih (fun x hx => hw x (by simp [hx]))]
    rfl

theorem decAddrList_of_append (as : List FormalAddr) (hl : as.length < 256 ^ 4)
    (hw : ∀ a ∈ as, a.WF) (rest : Bytes) :
    decAddrList (encAddrList as ++ rest) = some (as, rest) := by
  simp only [encAddrList, decAddrList, List.append_assoc]
  rw [decBE_of_append 4 as.length _ hl]
  simp only [Option.bind_eq_bind, Option.some_bind]
  exact decAddrs_of_append as hw rest

theorem peerInfoFromBytes_of_append (i : PeerInfo) (hw : i.WF) (rest : Bytes) :
    PeerInfo.from_bytes (i.to_bytes ++ rest) = some (i, rest) := by
  obtain ⟨_, hk, hn, ha⟩ := hw
  simp only [PeerInfo.to_bytes, PeerInfo.from_bytes, List.append_assoc]
  rw [decKeyField_of_append i.public_key hk]
  simp only [Option.bind_eq_bind, Option.some_bind]
  rw [decAddrList_of_append i.addresses hn ha]
  rfl

/-! Behaviour of the decoders on an encoder's output followed by arbitrary
trailing bytes. -/

theorem mediatorDecodeRequest_spec (info : PeerInfo) (addr : FormalAddr)
    (key : Bytes) (extra : Bytes) (hi : info.WF) (ha : addr.WF)
    (hk : key.length < 256 ^ 4) :
    MediatorCmd.decodeRequest (MediatorCmd.encode info addr key ++ extra) =
      if extra = [] then some (info, addr, key) else none := by
  simp only [MediatorCmd.encode, MediatorCmd.decodeRequest, List.append_assoc]
  rw [peerInfoFromBytes_of_append info hi]
  simp only [Option.bind_eq_bind, Option.some_bind]
  rw [formalAddrFromBytes_of_append addr ha]
  simp only [Option.some_bind]
  have h4 : (beBytes 4 key.length).length = 4 := beBytes_length 4 key.length
  rw [take_append_of_length _ _ _ h4, drop_append_of_length _ _ _ h4,
    beVal_beBytes 4 key.length hk]
  rw [if_pos (by simp)]
  rw [take_append_of_length _ _ _ rfl, drop_append_of_length _ _ _ rfl]
  by_cases hx : extra = [] <;> simp [hx]

theorem askDecode_spec (info : PeerInfo) (addr : FormalAddr)
    (extra : Bytes) (hi : info.WF) (ha : addr.WF) :
    AskSrudpCmd.decode (AskSrudpCmd.encode info addr ++ extra) =
      if extra = [] then some (info, addr) else none := by
  simp only [AskSrudpCmd.encode, AskSrudpCmd.decode, List.append_assoc]
  rw [peerInfoFromBytes_of_append info hi]
  simp only [Option.bind_eq_bind, Option.some_bind]
  rw [formalAddrFromBytes_of_append addr ha]
  by_cases hx : extra = [] <;> simp [hx]

theorem askDecodeRequest_spec (info : PeerInfo) (addr : FormalAddr)
    (extra : Bytes) (hi : info.WF) (ha : addr.WF) :
    AskSrudpCmd.decodeRequest (AskSrudpCmd.encode info addr ++ extra) =
      some (info, addr) := by
  simp only [AskSrudpCmd.encode, AskSrudpCmd.decodeRequest, List.append_assoc]
  rw [peerInfoFromBytes_of_append info hi]
  simp only [Option.bind_eq_bind, Option.some_bind]
  rw [formalAddrFromBytes_of_append addr ha]
  rfl

theorem pickAddr_eq_firstMatch (as : List FormalAddr) (issuer : FormalAddr) (rand : Nat) :
    pickAddr as issuer rand =
      (firstMatch as issuer.host.version).map
        (fun a => ⟨a.host, if issuer.host.is_loopback then rand else issuer.port⟩) := by
  induction as with
  | nil => rfl
  | cons a tl ih =>
    by_cases hv : a.host.version = issuer.host.version
    · by_cases hl : issuer.host.is_loopback <;>
        simp [pickAddr, firstMatch, List.find?, hv, hl]
    · simpa [pickAddr, firstMatch, List.find?, hv] using ih

theorem pickAddr_loopback_port (as : List FormalAddr) (issuer : FormalAddr)
    (rand : Nat) (d : FormalAddr) (hl : issuer.host.is_loopback = true)
    (h : pickAddr as issuer rand = some d) : d.port = rand := by
  rw [pickAddr_eq_firstMatch] at h
  cases hm : firstMatch as issuer.host.version with
  | none => rw [hm] at h; simp at h
  | some a =>
    rw [hm] at h
    simp only [Option.map] at h
    have h2 := Option.some_inj.mp h
    rw [← h2, hl]
    simp

theorem pickAddr_rand_irrelevant (as : List FormalAddr) (issuer : FormalAddr)
    (r1 r2 : Nat) (hl : issuer.host.is_loopback = false) :
    pickAddr as issuer r1 = pickAddr as issuer r2 := by
  rw [pickAddr_eq_firstMatch, pickAddr_eq_firstMatch, hl]
  simp

theorem findDest_of_first (pre post : List Peer) (dp : Peer) (key : Bytes)
    (hpre : ∀ p ∈ pre, p.validated_key ≠ some key)
    (hdp : dp.validated_key = some key) :
    findDest (pre ++ dp :: post) key = some dp := by
  induction pre with
  | nil => simp [findDest, List.find?, hdp]
  | cons p tl ih =>
    have hp : p.validated_key ≠ some key := hpre p (by simp)
    have hd : decide (p.validated_key = some key) = false := by simpa using hp
    simp only [findDest, List.cons_append, List.find?, hd]
    exact ih (fun q hq => hpre q (by simp [hq]))

theorem findDest_of_none (peers : List Peer) (key : Bytes)
    (h : ∀ p ∈ peers, p.validated_key ≠ some key) :
    findDest peers key = none := by
  induction peers with
  | nil => rfl
  | cons p tl ih =>
    have hd : decide (p.validated_key = some key) = false := by
      simpa using h p (by simp)
    simp only [findDest, List.find?, hd]
    exact ih (fun q hq => h q (by simp [hq]))

/-! ### C1 -/

/-- C1: the claim states `res_fnc` is invoked exactly once per inbound request
and that no fault raised after the synchronous success ack triggers a second,
failure response.  The code violates this: when the awaited connect task
raises after the ack has been sent (timeout or connect fault at line 151),
the exception handlers fall through to the unconditional
`res_fnc(_FAILED, ...)` at line 189, so the same request is answered twice.
This theorem evaluates `AskSrudpCmd.thread` at such an input: the response
list contains the success ack followed by a second, failure response. -/
theorem C1_ask_srudp_double_response :
    askResponses (AskSrudpCmd.thread cEnvConnFail cAskBody).trace =
      [.respond true (cMyInfo.to_bytes ++ FormalAddr.to_bytes ⟨cMyAddr.host, 2000⟩),
       .respond false askFailMsg] := by
  decide

/-! ### C6 -/

/-- C6: when the destination key matches the validated key of a known peer,
`MediatorCmd.thread` forwards the `AskSrudpCmd` encoding of the issuer's
identity and address to the first such peer and relays that peer's response
verbatim as its own success response; when no known peer's validated key
matches, it answers with the fixed failure payload and performs no
`throw_command` call. -/
theorem C6_mediation (env : MedEnv) (body : Bytes) (rp : Peer) (rk : Bytes)
    (info : PeerInfo) (addr : FormalAddr) (key : Bytes)
    (hr : env.req_peer = some rp) (hrk : rp.validated_key = some rk)
    (hdec : MediatorCmd.decodeRequest body = some (info, addr, key)) :
    (∀ pre dp post, env.peers = pre ++ dp :: post →
       (∀ p ∈ pre, p.validated_key ≠ some key) → dp.validated_key = some key →
       ∀ resp, env.throw_result = .ok resp →
         MediatorCmd.thread env body =
           [.throwCmd dp .REQUEST_ASK_SRUDP (AskSrudpCmd.encode info addr),
            .respond true resp]) ∧
    ((∀ p ∈ env.peers, p.validated_key ≠ some key) →
       MediatorCmd.thread env body = [.respond false mediatorFailMsg]) := by
  constructor
  · intro pre dp post hpeers hpre hdp resp hthrow
    simp only [MediatorCmd.thread, hr, hrk, hdec, hpeers,
      findDest_of_first pre post dp key hpre hdp, hthrow]
  · intro hnone
    simp only [MediatorCmd.thread, hr, hrk, hdec, findDest_of_none env.peers key hnone]

/-- C6 witness: the theorem applied to the concrete mediator environment with
one known peer whose validated key is the requested one. -/
theorem C6_mediation_witness :
    MediatorCmd.thread cMedEnv cMedBody =
      [.throwCmd cDest .REQUEST_ASK_SRUDP (AskSrudpCmd.encode cIssuerInfo cIssuerAddr),
       .respond true [1, 2, 3]] :=
  (C6_mediation cMedEnv cMedBody cMediator [5] cIssuerInfo cIssuerAddr [9]
    rfl rfl (by decide)).1 [] cDest [] rfl (by simp) rfl [1, 2, 3] rfl

/-! ### C7 -/

/-- C7: decoding the bytes produced by the matching encoder yields back the
original fields (for `AskSrudpCmd.decode` over `AskSrudpCmd.encode`, and for
the inline request decoding of `MediatorCmd.thread` over
`MediatorCmd.encode`), and a buffer extended by one trailing byte fails the
full-buffer-consumption assertion of either decoder. -/
theorem C7_roundtrip (info : PeerInfo) (addr : FormalAddr) (key : Bytes) (b : Nat)
    (hi : info.WF) (ha : addr.WF) (hk : key.length < 256 ^ 4) :
    AskSrudpCmd.decode (AskSrudpCmd.encode info addr) = some (info, addr) ∧
    MediatorCmd.decodeRequest (MediatorCmd.encode info addr key) = some (info, addr, key) ∧
    AskSrudpCmd.decode (AskSrudpCmd.encode info addr ++ [b]) = none ∧
    MediatorCmd.decodeRequest (MediatorCmd.encode info addr key ++ [b]) = none := by
  refine ⟨?_, ?_, ?_, ?_⟩
  · simpa using askDecode_spec info addr [] hi ha
  · simpa using mediatorDecodeRequest_spec info addr key [] hi ha hk
  · simpa using askDecode_spec info addr [b] hi ha
  · simpa using mediatorDecodeRequest_spec info addr key [b] hi ha hk

/-- C7 witness: the round trip at the concrete issuer identity, address and
key. -/
theorem C7_roundtrip_witness :
    AskSrudpCmd.decode (AskSrudpCmd.encode cIssuerInfo cIssuerAddr) =
      some (cIssuerInfo, cIssuerAddr) ∧
    MediatorCmd.decodeRequest (MediatorCmd.encode cIssuerInfo cIssuerAddr [9]) =
      some (cIssuerInfo, cIssuerAddr, [9]) ∧
    AskSrudpCmd.decode (AskSrudpCmd.encode cIssuerInfo cIssuerAddr ++ [0]) = none ∧
    MediatorCmd.decodeRequest (MediatorCmd.encode cIssuerInfo cIssuerAddr [9] ++ [0]) = none :=
  C7_roundtrip cIssuerInfo cIssuerAddr [9] 0 (by decide) (by decide) (by decide)

/-! ### C3 -/

/-- C3 counterexample: the claim states that both handlers reject a request
body with trailing bytes with the fixed failure payload.  `AskSrudpCmd.thread`
does not: its inline decode (source lines 121-123) performs no
full-buffer-consumed assertion, so a body with one trailing byte is processed
normally — the trace contains the success ack and never the failure
payload. -/
theorem C3_trailing_processed :
    AskEvent.respond false askFailMsg ∉ cRunTrailing.trace ∧
    firstAck cRunTrailing.trace =
      some (cMyInfo.to_bytes ++ FormalAddr.to_bytes ⟨cMyAddr.host, 2000⟩) := by
  decide

/-- C3 amended: only `MediatorCmd.thread` asserts full-buffer consumption —
any request body with trailing bytes is answered with its fixed failure
payload (in every environment).  `AskSrudpCmd.thread` decodes without the
full-consumption assert: trailing bytes are ignored and the request is
processed exactly as if they were absent. -/
theorem C3_full_buffer_check (env1 : MedEnv) (env2 : AskEnv) (info : PeerInfo)
    (addr : FormalAddr) (key extra1 extra2 : Bytes)
    (hi : info.WF) (ha : addr.WF) (hk : key.length < 256 ^ 4) (hx : extra1 ≠ []) :
    MediatorCmd.thread env1 (MediatorCmd.encode info addr key ++ extra1) =
      [.respond false mediatorFailMsg] ∧
    AskSrudpCmd.thread env2 (AskSrudpCmd.encode info addr ++ extra2) =
      AskSrudpCmd.thread env2 (AskSrudpCmd.encode info addr) := by
  have hdec1 : MediatorCmd.decodeRequest (MediatorCmd.encode info addr key ++ extra1) = none := by
    rw [mediatorDecodeRequest_spec info addr key extra1 hi ha hk, if_neg hx]
  have hdec2 : AskSrudpCmd.decodeRequest (AskSrudpCmd.encode info addr ++ extra2) =
      some (info, addr) := askDecodeRequest_spec info addr extra2 hi ha
  have hdec3 : AskSrudpCmd.decodeRequest (AskSrudpCmd.encode info addr) = some (info, addr) := by
    simpa using askDecodeRequest_spec info addr [] hi ha
  constructor
  · cases hrp : env1.req_peer with
    | none => simp [MediatorCmd.thread, hrp]
    | some rp =>
      cases hvk : rp.validated_key with
      | none => simp [MediatorCmd.thread, hrp, hvk]
      | some k => simp [MediatorCmd.thread, hrp, hvk, hdec1]
  · simp only [AskSrudpCmd.thread, hdec2, hdec3]

/-- C3 witness: the amended behaviour at concrete inputs with one trailing
byte on each request body. -/
theorem C3_full_buffer_check_witness :
    MediatorCmd.thread cMedEnv (MediatorCmd.encode cIssuerInfo cIssuerAddr [9] ++ [0]) =
      [.respond false mediatorFailMsg] ∧
    AskSrudpCmd.thread cEnvVal (AskSrudpCmd.encode cIssuerInfo cIssuerAddr ++ [0]) =
      AskSrudpCmd.thread cEnvVal (AskSrudpCmd.encode cIssuerInfo cIssuerAddr) :=
  C3_full_buffer_check cMedEnv cEnvVal cIssuerInfo cIssuerAddr [9] [0] [0]
    (by decide) (by decide) (by decide) (by decide)

/-! ### C4 -/

/-- C4 counterexample: the claim states the chosen response port always
differs from the issuer's declared port.  The code draws
`random.randint(1024, 65535)` without excluding the issuer's port: when the
draw equals the declared port (both 2000 here, and 2000 lies in
[1024, 65535]), the chosen response port equals the issuer's port, and that
equal port is passed as the explicit local source port of the dial. -/
theorem C4_port_can_collide :
    cLoopAddr.host.is_loopback = true ∧ cLoopAddr.port = 2000 ∧
    1024 ≤ 2000 ∧ 2000 ≤ 65535 ∧
    cRunLoopSame.trace.head? = some (.submitConnect AF_INET cLoopAddr (some 2000)) ∧
    firstAck cRunLoopSame.trace =
      some (cMyInfo.to_bytes ++ FormalAddr.to_bytes ⟨cMyAddr.host, 2000⟩) := by
  decide

/-- C4 amended: for a loopback issuer address with a version-matching local
address, the chosen response port is the `random.randint(1024, 65535)` draw —
hence lies within [1024, 65535], but is not guaranteed to differ from the
issuer's declared port — and the connect call submitted to the worker pool
passes exactly that chosen response port as the explicit local source port
of the dial. -/
theorem C4_loopback_port (env : AskEnv) (body : Bytes) (mp : Peer) (info : PeerInfo)
    (addr d : FormalAddr)
    (hm : env.mediate_peer = some mp)
    (hdec : AskSrudpCmd.decodeRequest body = some (info, addr))
    (hloop : addr.host.is_loopback = true)
    (hpick : pickAddr env.my_info.addresses addr env.rand_port = some d)
    (hlo : 1024 ≤ env.rand_port) (hhi : env.rand_port ≤ 65535) :
    d.port = env.rand_port ∧ 1024 ≤ d.port ∧ d.port ≤ 65535 ∧
    ∃ t, (AskSrudpCmd.thread env body).trace =
      .submitConnect (if addr.host.version = 4 then AF_INET else AF_INET6)
        addr (some d.port) :: t := by
  have hp := pickAddr_loopback_port _ _ _ _ hloop hpick
  refine ⟨hp, by omega, by omega, ?_⟩
  simp only [AskSrudpCmd.thread, hm, hdec, hpick, hloop, if_true]
  by_cases hc : env.connect_ok
  · by_cases hv : env.validated
    · cases hgp : get_peer_by_pubkey env.peers info.public_key <;>
        simp [hc, hv, hgp]
    · simp [hc, hv]
  · simp [hc]

/-- C4 witness: the amended loopback behaviour at a concrete draw 1500. -/
theorem C4_loopback_port_witness :
    (FormalAddr.mk cMyAddr.host 1500).port = 1500 ∧
    1024 ≤ (FormalAddr.mk cMyAddr.host 1500).port ∧
    (FormalAddr.mk cMyAddr.host 1500).port ≤ 65535 ∧
    ∃ t, (AskSrudpCmd.thread ⟨some cMediator, cMyInfo, 1500, true, true, [], [], 7⟩
        (AskSrudpCmd.encode cIssuerInfo cLoopAddr)).trace =
      .submitConnect (if cLoopAddr.host.version = 4 then AF_INET else AF_INET6)
        cLoopAddr (some (FormalAddr.mk cMyAddr.host 1500).port) :: t :=
  C4_loopback_port ⟨some cMediator, cMyInfo, 1500, true, true, [], [], 7⟩
    (AskSrudpCmd.encode cIssuerInfo cLoopAddr) cMediator cIssuerInfo cLoopAddr
    ⟨cMyAddr.host, 1500⟩ rfl (by decide) (by decide) (by decide) (by decide) (by decide)

/-- Shape of a connect-stage trace: whenever `AskSrudpCmd.thread` reaches the
connect stage, its trace begins with the worker-pool submission, the success
ack and the wait on the connect task, in that order. -/
theorem askThread_connect_shape (env : AskEnv) (body : Bytes) (mp : Peer)
    (info : PeerInfo) (addr d : FormalAddr)
    (hm : env.mediate_peer = some mp)
    (hdec : AskSrudpCmd.decodeRequest body = some (info, addr))
    (hpick : pickAddr env.my_info.addresses addr env.rand_port = some d) :
    ∃ fam lp t, (AskSrudpCmd.thread env body).trace =
      .submitConnect fam addr lp ::
      .respond true (env.my_info.to_bytes ++ d.to_bytes) ::
      .awaitConnect :: t := by
  simp only [AskSrudpCmd.thread, hm, hdec, hpick]
  by_cases hl : addr.host.is_loopback
  · by_cases hc : env.connect_ok
    · by_cases hv : env.validated
      · cases hgp : get_peer_by_pubkey env.peers info.public_key <;>
          simp [hl, hc, hv, hgp]
      · simp [hl, hc, hv]
    · simp [hl, hc]
  · by_cases hc : env.connect_ok
    · by_cases hv : env.validated
      · cases hgp : get_peer_by_pubkey env.peers info.public_key <;>
          simp [hl, hc, hv, hgp]
      · simp [hl, hc, hv]
    · simp [hl, hc]

/-! ### C8 -/

/-- C8: in every execution of `AskSrudpCmd.thread` that reaches the connect
stage, the trace begins with the worker-pool submission of the connect
attempt, then the synchronous success ack carrying `my_info` and the chosen
response address, and only then the wait on the connect task's result. -/
theorem C8_ack_before_await (env : AskEnv) (body : Bytes) (mp : Peer)
    (info : PeerInfo) (addr d : FormalAddr)
    (hm : env.mediate_peer = some mp)
    (hdec : AskSrudpCmd.decodeRequest body = some (info, addr))
    (hpick : pickAddr env.my_info.addresses addr env.rand_port = some d) :
    ∃ fam lp t, (AskSrudpCmd.thread env body).trace =
      .submitConnect fam addr lp ::
      .respond true (env.my_info.to_bytes ++ d.to_bytes) ::
      .awaitConnect :: t :=
  askThread_connect_shape env body mp info addr d hm hdec hpick

/-- C8 witness: the ordering at the concrete non-loopback request. -/
theorem C8_ack_before_await_witness :
    ∃ fam lp t, (AskSrudpCmd.thread cEnvConnFail cAskBody).trace =
      .submitConnect fam cIssuerAddr lp ::
      .respond true (cEnvConnFail.my_info.to_bytes ++
        FormalAddr.to_bytes ⟨cMyAddr.host, 2000⟩) ::
      .awaitConnect :: t :=
  C8_ack_before_await cEnvConnFail cAskBody cMediator cIssuerInfo cIssuerAddr
    ⟨cMyAddr.host, 2000⟩ rfl (by decide) (by decide)

/-! ### C2 -/

/-- C2 counterexample: the claim states that after successful connect and
validation a `Peer` record for the issuer's key exists with the new socket
attached — also when the record had to be created.  In the create branch
(source line 171) the code appends `Peer(issuer_info)` without attaching the
socket: afterwards the only peer record has an empty socket list while the
new socket (id 7) sits in the pool. -/
theorem C2_new_peer_lacks_sock :
    cRunVal.peers = [Peer.ofInfo cIssuerInfo] ∧
    cRunVal.pool = [7] ∧
    (∀ p ∈ cRunVal.peers, 7 ∉ p.socks) := by
  decide

/-- C2 amended: after a successful connect with the `VALIDATED` flag set, if a
peer matching the issuer's public key already existed the new socket is
appended to that peer's socket list; if none existed a new `Peer` record for
the issuer's identity is appended, but without the new socket attached (its
socket list is empty).  If the flag is not set, no peer record is created and
the socket is closed. -/
theorem C2_admission (env : AskEnv) (body : Bytes) (mp : Peer) (info : PeerInfo)
    (addr d : FormalAddr)
    (hm : env.mediate_peer = some mp)
    (hdec : AskSrudpCmd.decodeRequest body = some (info, addr))
    (hpick : pickAddr env.my_info.addresses addr env.rand_port = some d)
    (hok : env.connect_ok = true) :
    (env.validated = true → get_peer_by_pubkey env.peers info.public_key = none →
       (AskSrudpCmd.thread env body).peers = env.peers ++ [Peer.ofInfo info] ∧
       (Peer.ofInfo info).socks = []) ∧
    (env.validated = true → ∀ p, get_peer_by_pubkey env.peers info.public_key = some p →
       (AskSrudpCmd.thread env body).peers =
         attachSock env.peers info.public_key env.new_sock) ∧
    (env.validated = false →
       (AskSrudpCmd.thread env body).peers = env.peers ∧
       AskEvent.closeSock env.new_sock ∈ (AskSrudpCmd.thread env body).trace) := by
  refine ⟨?_, ?_, ?_⟩
  · intro hv hgp
    simp [AskSrudpCmd.thread, hm, hdec, hpick, hok, hv, hgp, Peer.ofInfo]
  · intro hv p hgp
    simp [AskSrudpCmd.thread, hm, hdec, hpick, hok, hv, hgp]
  · intro hv
    simp [AskSrudpCmd.thread, hm, hdec, hpick, hok, hv]

/-- C2 witness: the amended create-branch behaviour at the concrete
environment with no pre-existing peers. -/
theorem C2_admission_witness :
    cRunVal.peers = cEnvVal.peers ++ [Peer.ofInfo cIssuerInfo] ∧
    (Peer.ofInfo cIssuerInfo).socks = [] :=
  (C2_admission cEnvVal cAskBody cMediator cIssuerInfo cIssuerAddr
    ⟨cMyAddr.host, 2000⟩ rfl (by decide) (by decide) rfl).1 rfl rfl

/-! ### C5 -/

/-- C5: the chosen response address uses the host of the first of the node's
own advertised addresses whose IP version equals the issuer address's
version; for a non-loopback issuer address its port is reused unchanged; and
when no version-matching local address exists the handler answers with the
fixed failure payload (and performs nothing else). -/
theorem C5_address_selection (env : AskEnv) (body : Bytes) (mp : Peer)
    (info : PeerInfo) (addr : FormalAddr)
    (hm : env.mediate_peer = some mp)
    (hdec : AskSrudpCmd.decodeRequest body = some (info, addr)) :
    (∀ a, firstMatch env.my_info.addresses addr.host.version = some a →
       ∃ d, pickAddr env.my_info.addresses addr env.rand_port = some d ∧
         d.host = a.host ∧
         (addr.host.is_loopback = false → d.port = addr.port) ∧
         ∃ fam lp t, (AskSrudpCmd.thread env body).trace =
           .submitConnect fam addr lp ::
           .respond true (env.my_info.to_bytes ++ d.to_bytes) :: t) ∧
    (firstMatch env.my_info.addresses addr.host.version = none →
       AskSrudpCmd.thread env body = ⟨[.respond false askFailMsg], env.peers, env.pool⟩) := by
  constructor
  · intro a hfm
    have hpick : pickAddr env.my_info.addresses addr env.rand_port =
        some ⟨a.host, if addr.host.is_loopback then env.rand_port else addr.port⟩ := by
      rw [pickAddr_eq_firstMatch, hfm]
      rfl
    refine ⟨_, hpick, rfl, ?_, ?_⟩
    · intro hnl
      simp [hnl]
    · obtain ⟨fam, lp, t, ht⟩ :=
        askThread_connect_shape env body mp info addr _ hm hdec hpick
      exact ⟨fam, lp, .awaitConnect :: t, ht⟩
  · intro hfm
    have hpick : pickAddr env.my_info.addresses addr env.rand_port = none := by
      rw [pickAddr_eq_firstMatch, hfm]
      rfl
    simp [AskSrudpCmd.thread, hm, hdec, hpick]

/-- C5 witness: selection at the concrete non-loopback request, where the
node's first (only) IPv4 address is chosen and the issuer's port 2000 is
reused. -/
theorem C5_address_selection_witness :
    ∃ d, pickAddr cMyInfo.addresses cIssuerAddr cEnvVal.rand_port = some d ∧
      d.host = cMyAddr.host ∧
      (cIssuerAddr.host.is_loopback = false → d.port = cIssuerAddr.port) ∧
      ∃ fam lp t, (AskSrudpCmd.thread cEnvVal cAskBody).trace =
        .submitConnect fam cIssuerAddr lp ::
        .respond true (cEnvVal.my_info.to_bytes ++ d.to_bytes) :: t :=
  (C5_address_selection cEnvVal cAskBody cMediator cIssuerInfo cIssuerAddr
    rfl (by decide)).1 cMyAddr (by decide)

/-! ### C9 -/

/-- The first success-response payload of an `AskSrudpCmd.thread` run is the
encoding of the node's own identity and the picked response address. -/
theorem firstAck_thread (env : AskEnv) (body : Bytes) (mp : Peer)
    (info : PeerInfo) (addr : FormalAddr)
    (hm : env.mediate_peer = some mp)
    (hdec : AskSrudpCmd.decodeRequest body = some (info, addr)) :
    firstAck (AskSrudpCmd.thread env body).trace =
      (pickAddr env.my_info.addresses addr env.rand_port).map
        (fun d => env.my_info.to_bytes ++ d.to_bytes) := by
  simp only [AskSrudpCmd.thread, hm, hdec]
  cases hpick : pickAddr env.my_info.addresses addr env.rand_port with
  | none => simp [firstAck]
  | some d =>
    by_cases hl : addr.host.is_loopback
    · by_cases hc : env.connect_ok
      · by_cases hv : env.validated
        · cases hgp : get_peer_by_pubkey env.peers info.public_key <;>
            simp [hl, hc, hv, hgp, firstAck]
        · simp [hl, hc, hv, firstAck]
      · simp [hl, hc, firstAck]
    · by_cases hc : env.connect_ok
      · by_cases hv : env.validated
        · cases hgp : get_peer_by_pubkey env.peers info.public_key <;>
            simp [hl, hc, hv, hgp, firstAck]
        · simp [hl, hc, hv, firstAck]
      · simp [hl, hc, firstAck]

/-- C9: for non-loopback requests the success ack payload is a deterministic
function of the node's own identity and the decoded issuer address — two
executions with equal `my_info` and equal decoded issuer address produce the
same ack payload, whatever their random draw or connect outcome, because no
randomness enters the non-loopback address-selection path. -/
theorem C9_deterministic_ack (e1 e2 : AskEnv) (body1 body2 : Bytes)
    (mp1 mp2 : Peer) (i1 i2 : PeerInfo) (addr : FormalAddr)
    (hm1 : e1.mediate_peer = some mp1) (hm2 : e2.mediate_peer = some mp2)
    (hmy : e1.my_info = e2.my_info)
    (h1 : AskSrudpCmd.decodeRequest body1 = some (i1, addr))
    (h2 : AskSrudpCmd.decodeRequest body2 = some (i2, addr))
    (hnl : addr.host.is_loopback = false) :
    firstAck (AskSrudpCmd.thread e1 body1).trace =
      firstAck (AskSrudpCmd.thread e2 body2).trace := by
  rw [firstAck_thread e1 body1 mp1 i1 addr hm1 h1,
    firstAck_thread e2 body2 mp2 i2 addr hm2 h2, hmy,
    pickAddr_rand_irrelevant e2.my_info.addresses addr e1.rand_port e2.rand_port hnl]

/-- C9 witness: two concrete environments differing in their random draw and
connect outcome produce byte-for-byte the same ack payload for the same
non-loopback request. -/
theorem C9_deterministic_ack_witness :
    firstAck (AskSrudpCmd.thread cEnvConnFail cAskBody).trace =
      firstAck (AskSrudpCmd.thread cEnvLoopSame cAskBody).trace :=
  C9_deterministic_ack cEnvConnFail cEnvLoopSame cAskBody cAskBody
    cMediator cMediator cIssuerInfo cIssuerInfo cIssuerAddr
    rfl rfl rfl (by decide) (by decide) (by decide)

/-! ### C10 -/

/-- C10: in every execution, the only pool mutation `AskSrudpCmd.thread`
performs is the single `add_sock` registration of the newly created socket
(the final pool is the initial pool, or the initial pool with exactly the new
socket appended); whenever the socket is registered, the registration
immediately precedes the identity-validation wait in the trace; and on
validation failure after a successful connect the socket is closed yet
remains in the pool, with the peer list untouched — the handler never removes
a socket from the pool. -/
theorem C10_pool_discipline (env : AskEnv) (body : Bytes) :
    ((AskSrudpCmd.thread env body).pool = env.pool ∨
      (AskSrudpCmd.thread env body).pool = env.pool ++ [env.new_sock]) ∧
    (AskEvent.addSock env.new_sock ∈ (AskSrudpCmd.thread env body).trace →
      ∃ t1 t2, (AskSrudpCmd.thread env body).trace =
        t1 ++ AskEvent.addSock env.new_sock ::
          AskEvent.validateOther env.new_sock :: t2) ∧
    (env.connect_ok = true → env.validated = false →
      ∀ mp, env.mediate_peer = some mp →
      ∀ info addr, AskSrudpCmd.decodeRequest body = some (info, addr) →
      ∀ d, pickAddr env.my_info.addresses addr env.rand_port = some d →
      AskEvent.closeSock env.new_sock ∈ (AskSrudpCmd.thread env body).trace ∧
      env.new_sock ∈ (AskSrudpCmd.thread env body).pool ∧
      (AskSrudpCmd.thread env body).peers = env.peers) := by
  cases hm : env.mediate_peer with
  | none =>
    refine ⟨Or.inl (by simp [AskSrudpCmd.thread, hm]), ?_, ?_⟩
    · intro hmem
      simp [AskSrudpCmd.thread, hm] at hmem
    · intro _ _ mp hmp
      cases hmp
  | some mp =>
    cases hdec : AskSrudpCmd.decodeRequest body with
    | none =>
      refine ⟨Or.inl (by simp [AskSrudpCmd.thread, hm, hdec]), ?_, ?_⟩
      · intro hmem
        simp [AskSrudpCmd.thread, hm, hdec] at hmem
      · intro _ _ mp' _ info addr hdec'
        cases hdec'
    | some p =>
      obtain ⟨info, addr⟩ := p
      cases hpick : pickAddr env.my_info.addresses addr env.rand_port with
      | none =>
        refine ⟨Or.inl (by simp [AskSrudpCmd.thread, hm, hdec, hpick]), ?_, ?_⟩
        · intro hmem
          simp [AskSrudpCmd.thread, hm, hdec, hpick] at hmem
        · intro _ _ mp' hmp' info' addr' hdec' d hpick'
          cases hdec'
          rw [hpick] at hpick'
          cases hpick'
      | some d =>
        by_cases hc : env.connect_ok
        · by_cases hv : env.validated
          · refine ⟨?_, ?_, ?_⟩
            · right
              cases hgp : get_peer_by_pubkey env.peers info.public_key <;>
                simp [AskSrudpCmd.thread, hm, hdec, hpick, hc, hv, hgp]
            · intro _
              cases hgp : get_peer_by_pubkey env.peers info.public_key with
              | none =>
                simp only [AskSrudpCmd.thread, hm, hdec, hpick, hgp]
                simp [hc, hv]
                exact ⟨[_, _, _], [_], rfl⟩
              | some q =>
                simp only [AskSrudpCmd.thread, hm, hdec, hpick, hgp]
                simp [hc, hv]
                exact ⟨[_, _, _], [_], rfl⟩
            · intro _ hv'
              rw [hv'] at hv
              cases hv
          · refine ⟨?_, ?_, ?_⟩
            · right
              simp [AskSrudpCmd.thread, hm, hdec, hpick, hc, hv]
            · intro _
              simp only [AskSrudpCmd.thread, hm, hdec, hpick]
              simp [hc, hv]
              exact ⟨[_, _, _], [_, _], rfl⟩
            · intro _ _ _ _ _ _ _ _ _
              refine ⟨?_, ?_, ?_⟩
              · simp [AskSrudpCmd.thread, hm, hdec, hpick, hc, hv]
              · simp [AskSrudpCmd.thread, hm, hdec, hpick, hc, hv]
              · simp [AskSrudpCmd.thread, hm, hdec, hpick, hc, hv]
        · refine ⟨Or.inl ?_, ?_, ?_⟩
          · simp [AskSrudpCmd.thread, hm, hdec, hpick, hc]
          · intro hmem
            by_cases hl : addr.host.is_loopback <;>
              simp [AskSrudpCmd.thread, hm, hdec, hpick, hc, hl] at hmem
          · intro hc' _ _ _ _ _ _ _ _
            rw [hc'] at hc
            cases hc rfl

/-- C10 witness: at the concrete environment where connect succeeds but
validation fails, the closed socket (id 7) is still in the pool and the peer
list is unchanged. -/
theorem C10_pool_discipline_witness :
    AskEvent.closeSock 7 ∈
      (AskSrudpCmd.thread ⟨some cMediator, cMyInfo, 5000, true, false, [], [], 7⟩
        cAskBody).trace ∧
    7 ∈ (AskSrudpCmd.thread ⟨some cMediator, cMyInfo, 5000, true, false, [], [], 7⟩
        cAskBody).pool ∧
    (AskSrudpCmd.thread ⟨some cMediator, cMyInfo, 5000, true, false, [], [], 7⟩
        cAskBody).peers = [] :=
  (C10_pool_discipline ⟨some cMediator, cMyInfo, 5000, true, false, [], [], 7⟩
    cAskBody).2.2 rfl rfl cMediator rfl cIssuerInfo cIssuerAddr (by decide)
    ⟨cMyAddr.host, 2000⟩ (by decide)

end ConnectionRelay

